import Mathlib

set_option maxRecDepth 100000

/-
Verification of the MCP session manager (`tool/mcptoolset/session_manager.go`).

The file shallowly embeds the two session-manager variants of that file
(the exported `SessionManager` and the internal `sessionManager`) together
with the helpers they use: the header canonicalisation and MD5-based key
derivation, the header-injecting HTTP transport wrapper, and the pool
operations `GetSession` and `Close`.

Modelling conventions:
  - Go strings are Lean `String`s; `[]byte(s)` is the UTF-8 byte list of `s`
    (bytes as `Nat` below 256).  Byte-wise lexicographic comparison of UTF-8
    strings coincides with code-point lexicographic comparison, so Go's
    `sort.Strings` is modelled by sorting with Lean's `String` order.
  - A Go `map[string]string` is an association list `List (String × String)`;
    the list order models the (unspecified) iteration order, and theorems
    about map inputs carry a no-duplicate-keys hypothesis where needed.
  - 32-bit machine arithmetic is `Nat` arithmetic reduced modulo 2^32.
  - The external mcp / net/http collaborators are modelled structurally:
    transports as an inductive with the two header-sensitive variants and
    opaque other kinds, HTTP clients as records of the fields the code
    touches, `Connect` / `Ping` / `Close` as oracle functions passed in.
-/

/-! ## Bytes, hex rendering, UTF-8 -/

/-- One lowercase hexadecimal digit (`encoding/hex` uses the lowercase
alphabet). -/
def hexDigit (n : Nat) : Char :=
  if n < 10 then Char.ofNat (48 + n) else Char.ofNat (87 + n)

/-- `hex.EncodeToString`: each byte becomes exactly two lowercase hex digits
(fixed width, leading zeros kept). -/
def hexEncode (bs : List Nat) : String :=
  String.mk (bs.flatMap (fun b => [hexDigit (b / 16), hexDigit (b % 16)]))

/-- UTF-8 encoding of one code point, as byte values. -/
def utf8EncodeChar (c : Nat) : List Nat :=
  if c < 128 then [c]
  else if c < 2048 then [192 + c / 64, 128 + c % 64]
  else if c < 65536 then [224 + c / 4096, 128 + c / 64 % 64, 128 + c % 64]
  else [240 + c / 262144, 128 + c / 4096 % 64, 128 + c / 64 % 64, 128 + c % 64]

/-- `[]byte(s)` in Go: the UTF-8 bytes of the string. -/
def strBytes (s : String) : List Nat :=
  s.data.flatMap (fun c => utf8EncodeChar c.toNat)

/-! ## Go `%q` string quoting (`strconv.Quote`)

Faithful on ASCII.  For code points at or above `0xa0` Go consults its
Unicode printability tables; that external table is simplified here to
"printable", which is exact for every ASCII input (the inputs exercised by
the theorems below). -/

/-- How `strconv.Quote` renders a single rune inside the quotes. -/
def quoteChar (c : Char) : List Char :=
  if c = '"' ∨ c = '\\' then ['\\', c]
  else if (32 ≤ c.toNat ∧ c.toNat ≤ 126) ∨ 160 ≤ c.toNat then [c]
  else if c.toNat = 7 then ['\\', 'a']
  else if c.toNat = 8 then ['\\', 'b']
  else if c.toNat = 12 then ['\\', 'f']
  else if c.toNat = 10 then ['\\', 'n']
  else if c.toNat = 13 then ['\\', 'r']
  else if c.toNat = 9 then ['\\', 't']
  else if c.toNat = 11 then ['\\', 'v']
  else if c.toNat < 32 ∨ c.toNat = 127 then
    ['\\', 'x', hexDigit (c.toNat / 16), hexDigit (c.toNat % 16)]
  else
    ['\\', 'u', hexDigit (c.toNat / 4096 % 16), hexDigit (c.toNat / 256 % 16),
      hexDigit (c.toNat / 16 % 16), hexDigit (c.toNat % 16)]

/-- Go `fmt.Sprintf("%q", s)`: the double-quoted, escaped rendering. -/
def goQuote (s : String) : String :=
  "\"" ++ String.mk (s.data.flatMap quoteChar) ++ "\""

/-! ## MD5 (`crypto/md5`), over byte lists with `Nat` arithmetic mod 2^32 -/

/-- Addition modulo 2^32. -/
def add32 (a b : Nat) : Nat := (a + b) % 4294967296

/-- Bitwise complement within 32 bits. -/
def not32 (a : Nat) : Nat := 4294967295 ^^^ a

/-- Rotate a 32-bit value left by `s` bits. -/
def rotl32 (x s : Nat) : Nat := ((x <<< s) ||| (x >>> (32 - s))) &&& 4294967295

/-- The 64 MD5 sine-derived constants. -/
def mdK : List Nat :=
  [3614090360, 3905402710, 606105819, 3250441966,
   4118548399, 1200080426, 2821735955, 4249261313,
   1770035416, 2336552879, 4294925233, 2304563134,
   1804603682, 4254626195, 2792965006, 1236535329,
   4129170786, 3225465664, 643717713, 3921069994,
   3593408605, 38016083, 3634488961, 3889429448,
   568446438, 3275163606, 4107603335, 1163531501,
   2850285829, 4243563512, 1735328473, 2368359562,
   4294588738, 2272392833, 1839030562, 4259657740,
   2763975236, 1272893353, 4139469664, 3200236656,
   681279174, 3936430074, 3572445317, 76029189,
   3654602809, 3873151461, 530742520, 3299628645,
   4096336452, 1126891415, 2878612391, 4237533241,
   1700485571, 2399980690, 4293915773, 2240044497,
   1873313359, 4264355552, 2734768916, 1309151649,
   4149444226, 3174756917, 718787259, 3951481745]

/-- The 64 MD5 per-round left-rotation amounts. -/
def mdS : List Nat :=
  [7, 12, 17, 22, 7, 12, 17, 22, 7, 12, 17, 22, 7, 12, 17, 22,
   5, 9, 14, 20, 5, 9, 14, 20, 5, 9, 14, 20, 5, 9, 14, 20,
   4, 11, 16, 23, 4, 11, 16, 23, 4, 11, 16, 23, 4, 11, 16, 23,
   6, 10, 15, 21, 6, 10, 15, 21, 6, 10, 15, 21, 6, 10, 15, 21]

/-- Little-endian 32-bit word `g` of a 64-byte block. -/
def leWord (block : List Nat) (g : Nat) : Nat :=
  block.getD (4 * g) 0 + 256 * block.getD (4 * g + 1) 0 +
    65536 * block.getD (4 * g + 2) 0 + 16777216 * block.getD (4 * g + 3) 0

/-- One of the 64 MD5 operations on the state `(A, B, C, D)`. -/
def md5Round (block : List Nat) (st : Nat × Nat × Nat × Nat) (i : Nat) :
    Nat × Nat × Nat × Nat :=
  let (a, b, c, d) := st
  let fg : Nat × Nat :=
    if i < 16 then (((b &&& c) ||| (not32 b &&& d)), i)
    else if i < 32 then (((d &&& b) ||| (not32 d &&& c)), (5 * i + 1) % 16)
    else if i < 48 then ((b ^^^ c ^^^ d), (3 * i + 5) % 16)
    else ((c ^^^ (b ||| not32 d)), (7 * i) % 16)
  let tmp := add32 (add32 (add32 a fg.1) (mdK.getD i 0)) (leWord block fg.2)
  (d, add32 b (rotl32 tmp (mdS.getD i 0)), b, c)

/-- Process one 64-byte block. -/
def md5Block (st : Nat × Nat × Nat × Nat) (block : List Nat) :
    Nat × Nat × Nat × Nat :=
  let r := (List.range 64).foldl (md5Round block) st
  (add32 st.1 r.1, add32 st.2.1 r.2.1, add32 st.2.2.1 r.2.2.1,
    add32 st.2.2.2 r.2.2.2)

/-- Little-endian bytes of a 64-bit length value. -/
def le64 (n : Nat) : List Nat :=
  (List.range 8).map (fun i => (n >>> (8 * i)) % 256)

/-- MD5 padding: a 0x80 byte, zeros to 56 mod 64, then the bit length. -/
def md5Pad (msg : List Nat) : List Nat :=
  msg ++ [128] ++ List.replicate ((64 + 56 - (msg.length + 1) % 64) % 64) 0 ++
    le64 (8 * msg.length)

/-- Split a byte list into 64-byte chunks; structural recursion on a fuel
bound so that the definition reduces inside the kernel. -/
def chunks64Go (fuel : Nat) (l : List Nat) : List (List Nat) :=
  match fuel, l with
  | 0, _ => []
  | _, [] => []
  | fuel + 1, l => l.take 64 :: chunks64Go fuel (l.drop 64)

/-- Split a byte list into 64-byte chunks (the list's length bounds the
number of chunks). -/
def chunks64 (l : List Nat) : List (List Nat) := chunks64Go l.length l

/-- Little-endian bytes of one 32-bit state word. -/
def le32 (n : Nat) : List Nat :=
  [n % 256, (n >>> 8) % 256, (n >>> 16) % 256, (n >>> 24) % 256]

/-- `md5.Sum`: the 16-byte MD5 digest of a byte list. -/
def md5 (msg : List Nat) : List Nat :=
  let r := (chunks64 (md5Pad msg)).foldl md5Block
    (1732584193, 4023233417, 2562383102, 271733878)
  le32 r.1 ++ le32 r.2.1 ++ le32 r.2.2.1 ++ le32 r.2.2.2

/-! ## Header maps -/

/-- A Go `map[string]string`, as an association list; the list order models
the map's unspecified iteration order. -/
abbrev Headers := List (String × String)

/-- Go map indexing `m[k]` (`none` models the missing-key case). -/
def lookupH (m : List (String × α)) (k : String) : Option α :=
  match m with
  | [] => none
  | (k1, v1) :: rest => if k1 = k then some v1 else lookupH rest k

/-- Go map assignment `m[k] = v`: the entry for `k` is overwritten. -/
def mapSet (m : List (String × α)) (k : String) (v : α) : List (String × α) :=
  (k, v) :: m.filter (fun p => ¬ p.1 = k)

/-! ## The external mcp / net/http collaborators (structural models) -/

/-- `http.RoundTripper` values the code can hold: a nil interface value,
`http.DefaultTransport`, the repository's `headerTransport` decorator, or
any other implementation (an opaque handle). -/
inductive RoundTripper where
  | nilRT : RoundTripper
  | defaultTransport : RoundTripper
  | header (base : RoundTripper) (headers : Headers) : RoundTripper
  | ext (id : Nat) : RoundTripper
deriving DecidableEq, Repr

/-- `http.Client`: the fields `wrapHTTPClient` reads and copies.  The
redirect policy and cookie jar are opaque handles (`none`, and
`RoundTripper.nilRT` for the transport, model a nil field). -/
structure HTTPClient where
  transport : RoundTripper
  checkRedirect : Option Nat
  jar : Option Nat
  timeout : Nat
deriving DecidableEq, Repr

/-- `mcp.Transport` variants: the two header-sensitive HTTP kinds carry an
endpoint and an optional `http.Client`; every other kind (stdio, command,
in-memory, ...) is header-insensitive and opaque here. -/
inductive Transport where
  | sse (endpoint : String) (client : Option HTTPClient) : Transport
  | streamable (endpoint : String) (client : Option HTTPClient) : Transport
  | stdio : Transport
  | command (id : Nat) : Transport
  | inMemory (id : Nat) : Transport
deriving DecidableEq, Repr

/-! ## Key derivation: the two variants

`SessionManager.generateSessionKey` (the exported variant) and
`sessionManager.generateSessionKey` (the internal variant) are both methods
of a manager holding a `transport` field, so both take the transport here;
the exported variant never reads it. -/

/-- `sessionManager.headersAffectSession`: true only for the HTTP-based
transports where headers are actually used by the connection. -/
def sessionManager.headersAffectSession (t : Transport) : Bool :=
  match t with
  | Transport.sse _ _ => true
  | Transport.streamable _ _ => true
  | _ => false

/-- Exported `SessionManager.generateSessionKey`: hash-based key from the
headers alone (the receiver's transport is not consulted). -/
def SessionManager.generateSessionKey (_t : Transport) (headers : Headers) :
    String :=
  if headers.length = 0 then "default"
  else
    let keys := List.insertionSort (fun a b : String => a ≤ b)
      (headers.map Prod.fst)
    let pairs := keys.map
      (fun k => goQuote k ++ ":" ++ goQuote ((lookupH headers k).getD ""))
    let jsonStr := "\x7b" ++ String.intercalate "," pairs ++ "\x7d"
    hexEncode (md5 (strBytes jsonStr))

/-- Internal `sessionManager.generateSessionKey`: additionally collapses to
`"default"` whenever the transport kind is header-insensitive. -/
def sessionManager.generateSessionKey (t : Transport) (headers : Headers) :
    String :=
  if ¬ sessionManager.headersAffectSession t then "default"
  else if headers.length = 0 then "default"
  else
    let keys := List.insertionSort (fun a b : String => a ≤ b)
      (headers.map Prod.fst)
    let pairs := keys.map
      (fun k => goQuote k ++ ":" ++ goQuote ((lookupH headers k).getD ""))
    let jsonStr := "\x7b" ++ String.intercalate "," pairs ++ "\x7d"
    hexEncode (md5 (strBytes jsonStr))

/-- The canonical-serialisation hash both variants compute for a non-empty
header map (named so theorems can speak about "the hash key"). -/
def headerHashKey (headers : Headers) : String :=
  hexEncode (md5 (strBytes ("\x7b" ++ String.intercalate ","
    ((List.insertionSort (fun a b : String => a ≤ b) (headers.map Prod.fst)).map
      (fun k => goQuote k ++ ":" ++ goQuote ((lookupH headers k).getD ""))) ++
    "\x7d")))

/-! ## Transport header injection -/

/-- `wrapHTTPClient`: a nil client is replaced by a fresh zero-value
`http.Client`; the returned client decorates the round tripper with
`headerTransport` and copies `CheckRedirect`, `Jar` and `Timeout`. -/
def wrapHTTPClient (httpClient : Option HTTPClient) (headers : Headers) :
    HTTPClient :=
  let c := httpClient.getD
    { transport := RoundTripper.nilRT, checkRedirect := none, jar := none,
      timeout := 0 }
  { transport := RoundTripper.header c.transport headers,
    checkRedirect := c.checkRedirect, jar := c.jar, timeout := c.timeout }

/-- `SessionManager.wrapTransportWithHeaders`: the type switch over the
manager's base transport.  (The internal variant's method body is
identical.) -/
def SessionManager.wrapTransportWithHeaders (t : Transport)
    (headers : Headers) : Transport :=
  match t with
  | Transport.sse e c => Transport.sse e (some (wrapHTTPClient c headers))
  | Transport.streamable e c =>
      Transport.streamable e (some (wrapHTTPClient c headers))
  | _ => t

/-! ## The session pool -/

/-- An established `mcp.ClientSession`, as an opaque handle. -/
structure Session where
  id : Nat
deriving DecidableEq, Repr

/-- `sessionEntry`: one established session plus the header map used to
establish it. -/
structure SessionEntry where
  session : Session
  headers : Headers
deriving DecidableEq, Repr

/-- The mutable state of a manager: its `sessions` map. -/
structure PoolState where
  sessions : List (String × SessionEntry)
deriving DecidableEq, Repr

/-- Go `error` values as the code builds them: a leaf message, a
`fmt.Errorf("...: %w", err)` wrap, or the `fmt.Errorf("...: %v", errs)`
aggregate of `Close`. -/
inductive GoError where
  | base (msg : String) : GoError
  | wrap (msg : String) (cause : GoError) : GoError
  | aggregate (msg : String) (errs : List GoError) : GoError

/-- `SessionManager.isSessionValid`: nil is never valid, otherwise the
liveness probe (`Ping`, an oracle here) decides.  The deadline juggling on
the probe's context is real-time behaviour outside this embedding. -/
def SessionManager.isSessionValid (ping : Session → Bool)
    (session : Option Session) : Bool :=
  match session with
  | none => false
  | some s => ping s

/-- The lookup-and-validate step that both the fast path and the locked
re-check of `GetSession` perform: the session stored under the key, if an
entry is present and the liveness probe accepts it. -/
def SessionManager.lookupLive (ping : Session → Bool)
    (sessions : List (String × SessionEntry)) (key : String) :
    Option Session :=
  match lookupH sessions key with
  | some entry =>
      if SessionManager.isSessionValid ping (some entry.session) then
        some entry.session
      else none
  | none => none

/-- `SessionManager.GetSession`, sequential semantics.  `connect` is the
external client's `Connect` oracle and `ping` the liveness oracle; the
result is the returned value, the pool state after the call, and how many
times `Connect` was invoked.  The fast path and the locked re-check of the
double-checked pattern are both present; with no interleaving they read the
same map. -/
def SessionManager.GetSession (connect : Transport → Except GoError Session)
    (ping : Session → Bool) (t : Transport) (st : PoolState)
    (headers : Headers) : Except GoError Session × PoolState × Nat :=
  let key := SessionManager.generateSessionKey t headers
  match SessionManager.lookupLive ping st.sessions key with
  | some s => (Except.ok s, st, 0)
  | none =>
    match SessionManager.lookupLive ping st.sessions key with
    | some s => (Except.ok s, st, 0)
    | none =>
      match connect (SessionManager.wrapTransportWithHeaders t headers) with
      | Except.error e =>
          (Except.error (GoError.wrap "failed to create session" e), st, 1)
      | Except.ok s =>
          (Except.ok s,
            { sessions := mapSet st.sessions key
                { session := s, headers := headers } }, 1)

/-- `SessionManager.Close`: close every stored session (`closeFn` is the
session `Close` oracle, `none` meaning success), collect every failure,
empty the map, and return the aggregate error (or none). -/
def SessionManager.Close (closeFn : Session → Option GoError)
    (st : PoolState) : Option GoError × PoolState :=
  let errs := st.sessions.filterMap (fun p => closeFn p.2.session)
  (if errs.isEmpty then none
   else some (GoError.aggregate "errors closing sessions" errs),
   { sessions := [] })

/-! ## The header-injecting round tripper -/

/-- `http.Request`: the header map plus the fields a clone carries over
unchanged (opaque handles; `body none` models a nil body). -/
structure Request where
  header : Headers
  body : Option Nat
  url : Nat
deriving DecidableEq, Repr

/-- `http.Header.Set` on the model: the entry for the name is overwritten.
(net/http additionally MIME-canonicalises header names; names are compared
verbatim here.) -/
def headerSet (h : Headers) (k v : String) : Headers := mapSet h k v

/-- The request `headerTransport.RoundTrip` hands to the base round
tripper: the original request when no headers are configured, otherwise a
clone with every configured header set on it (`req.Clone` copies the other
fields).  In the exported variant the `reqBodyClosed` guard is set before
every return, so the deferred body close never fires on these paths. -/
def headerTransport.RoundTrip (cfg : Headers) (req : Request) : Request :=
  if cfg.length = 0 then req
  else { req with
    header := cfg.foldl (fun h kv => headerSet h kv.1 kv.2) req.header }

/-! ## The reference key derivation of the specification

Written from the specification's words ("sort the header names ascending
byte-wise, build an ordered list of quoted name:value pairs in that order,
join with commas inside braces to form a canonical string, and compute a
hash over its bytes, rendered as a fixed-width hex string"), to be compared
with the implementation. -/

/-- The specification's reference definition of the session key. -/
def specSessionKey (headers : Headers) : String :=
  if headers = [] then "default"
  else
    let names := List.insertionSort (fun a b : String => a ≤ b)
      (headers.map Prod.fst)
    let pairs := names.map
      (fun name => goQuote name ++ ":" ++ goQuote ((lookupH headers name).getD ""))
    hexEncode (md5 (strBytes
      ("\x7b" ++ String.intercalate "," pairs ++ "\x7d")))

/-- A lowercase hexadecimal digit. -/
def isLowerHex (c : Char) : Bool :=
  decide (('0' ≤ c ∧ c ≤ '9') ∨ ('a' ≤ c ∧ c ≤ 'f'))

/-- A 32-character lowercase-hex string (the shape of a rendered MD5
digest). -/
def isHexKey32 (s : String) : Bool :=
  s.length = 32 && s.data.all isLowerHex

/-! ## Lemmas: association-list lookups -/

theorem lookupH_mem {α : Type} {m : List (String × α)} {k : String} {v : α}
    (h : lookupH m k = some v) : (k, v) ∈ m := by
  induction m with
  | nil => simp [lookupH] at h
  | cons p r ih =>
    obtain ⟨k1, v1⟩ := p
    rw [lookupH] at h
    by_cases hk : k1 = k
    · rw [if_pos hk] at h
      subst hk
      cases h
      exact List.mem_cons_self _ _
    · rw [if_neg hk] at h
      exact List.mem_cons_of_mem _ (ih h)

theorem lookupH_eq_none {α : Type} {m : List (String × α)} {k : String} :
    lookupH m k = none ↔ k ∉ m.map Prod.fst := by
  induction m with
  | nil => simp [lookupH]
  | cons p r ih =>
    obtain ⟨k1, v1⟩ := p
    rw [lookupH]
    by_cases hk : k1 = k
    · subst hk
      simp
    · simp [if_neg hk, ih, Ne.symm hk]

theorem lookupH_of_mem_nodup {α : Type} {m : List (String × α)} {k : String}
    {v : α} (hnd : (m.map Prod.fst).Nodup) (hm : (k, v) ∈ m) :
    lookupH m k = some v := by
  induction m with
  | nil => simp at hm
  | cons p r ih =>
    obtain ⟨k1, v1⟩ := p
    rw [List.map_cons, List.nodup_cons] at hnd
    rcases List.mem_cons.mp hm with h1 | h1
    · cases h1
      simp [lookupH]
    · rw [lookupH]
      by_cases hk : k1 = k
      · subst hk
        exact absurd (List.mem_map.mpr ⟨(k1, v), h1, rfl⟩) hnd.1
      · rw [if_neg hk]
        exact ih hnd.2 h1

theorem lookupH_perm {α : Type} {m1 m2 : List (String × α)}
    (hperm : m1.Perm m2) (hnd : (m1.map Prod.fst).Nodup) (k : String) :
    lookupH m1 k = lookupH m2 k := by
  have hnd2 : (m2.map Prod.fst).Nodup := ((hperm.map Prod.fst).nodup_iff).mp hnd
  cases h1 : lookupH m1 k with
  | some v =>
    exact (lookupH_of_mem_nodup hnd2 (hperm.subset (lookupH_mem h1))).symm
  | none =>
    cases h2 : lookupH m2 k with
    | some v =>
      exact absurd (hperm.symm.subset (lookupH_mem h2))
        (fun hm => (lookupH_eq_none.mp h1)
          (List.mem_map.mpr ⟨(k, v), hm, rfl⟩))
    | none => rfl

theorem lookupH_mapSet_self {α : Type} (m : List (String × α)) (k : String)
    (v : α) : lookupH (mapSet m k v) k = some v := by
  simp [mapSet, lookupH]

theorem lookupH_filter_ne {α : Type} {m : List (String × α)} {k k1 : String}
    (hk : k1 ≠ k) :
    lookupH (m.filter (fun p => ¬ p.1 = k1)) k = lookupH m k := by
  induction m with
  | nil => rfl
  | cons p r ih =>
    obtain ⟨k2, v2⟩ := p
    by_cases h2 : k2 = k1
    · subst h2
      rw [List.filter_cons_of_neg (by simp)]
      rw [ih, lookupH, if_neg hk]
    · rw [List.filter_cons_of_pos (by simpa using h2)]
      rw [lookupH, lookupH]
      by_cases h3 : k2 = k
      · rw [if_pos h3, if_pos h3]
      · rw [if_neg h3, if_neg h3, ih]

theorem lookupH_mapSet_ne {α : Type} (m : List (String × α)) {k k1 : String}
    (v : α) (hk : k1 ≠ k) : lookupH (mapSet m k1 v) k = lookupH m k := by
  rw [mapSet, lookupH, if_neg hk, lookupH_filter_ne hk]

/-! ## Lemmas: the digest's shape -/

theorem le32_lt (x : Nat) : ∀ b ∈ le32 x, b < 256 := by
  intro b hb
  simp only [le32, List.mem_cons, List.not_mem_nil, or_false] at hb
  rcases hb with h | h | h | h <;> omega

theorem md5_length (msg : List Nat) : (md5 msg).length = 16 := by
  rw [md5]
  simp [le32]

theorem md5_lt (msg : List Nat) : ∀ b ∈ md5 msg, b < 256 := by
  intro b hb
  rw [md5] at hb
  simp only [List.mem_append] at hb
  rcases hb with ((h | h) | h) | h <;> exact le32_lt _ _ h

theorem hexEncode_length (bs : List Nat) :
    (hexEncode bs).length = 2 * bs.length := by
  induction bs with
  | nil => rfl
  | cons b r ih =>
    simp only [hexEncode, String.length, List.flatMap_cons] at ih ⊢
    simp at ih ⊢
    omega

theorem hexDigit_isLowerHex {n : Nat} (h : n < 16) :
    isLowerHex (hexDigit n) = true := by
  interval_cases n <;> decide

theorem isHexKey32_hexEncode {bs : List Nat} (hlen : bs.length = 16)
    (hlt : ∀ b ∈ bs, b < 256) : isHexKey32 (hexEncode bs) = true := by
  rw [isHexKey32]
  refine (Bool.and_eq_true _ _).mpr ⟨by simp [hexEncode_length, hlen], ?_⟩
  rw [List.all_eq_true]
  intro c hc
  have hc2 : c ∈ (hexEncode bs).data := hc
  rw [hexEncode] at hc2
  simp only [List.mem_flatMap] at hc2
  obtain ⟨b, hb, hcb⟩ := hc2
  have hb256 := hlt b hb
  simp only [List.mem_cons, List.not_mem_nil, or_false] at hcb
  rcases hcb with h | h <;> subst h <;> exact hexDigit_isLowerHex (by omega)

theorem headerHashKey_length (h : Headers) :
    (headerHashKey h).length = 32 := by
  rw [headerHashKey, hexEncode_length, md5_length]

theorem isHexKey32_headerHashKey (h : Headers) :
    isHexKey32 (headerHashKey h) = true := by
  rw [headerHashKey]
  exact isHexKey32_hexEncode (md5_length _) (md5_lt _)

theorem headerHashKey_ne_default (h : Headers) :
    headerHashKey h ≠ "default" := by
  intro he
  have hlen := congrArg String.length he
  rw [headerHashKey_length] at hlen
  exact absurd hlen (by decide)

/-! ## Lemmas: closed forms of the two key derivations -/

theorem exported_key_eq (t : Transport) (h : Headers) :
    SessionManager.generateSessionKey t h =
      if h = [] then "default" else headerHashKey h := by
  cases h with
  | nil => rfl
  | cons p r =>
    rw [SessionManager.generateSessionKey, headerHashKey]
    simp

theorem internal_key_eq (t : Transport) (h : Headers) :
    sessionManager.generateSessionKey t h =
      if sessionManager.headersAffectSession t = false ∨ h = [] then "default"
      else headerHashKey h := by
  by_cases ha : sessionManager.headersAffectSession t
  · cases h with
    | nil => simp [sessionManager.generateSessionKey, ha]
    | cons p r =>
      rw [sessionManager.generateSessionKey, headerHashKey]
      simp [ha]
  · have hf : sessionManager.headersAffectSession t = false := by
      simpa using ha
    simp [sessionManager.generateSessionKey, hf]

/-! ## Lemmas: permutation invariance of the canonical serialisation -/

theorem sortKeys_perm_eq {l1 l2 : List String} (hp : l1.Perm l2) :
    List.insertionSort (fun a b : String => a ≤ b) l1 =
    List.insertionSort (fun a b : String => a ≤ b) l2 := by
  apply List.eq_of_perm_of_sorted (r := fun a b : String => a ≤ b)
  · exact (List.perm_insertionSort _ _).trans
      (hp.trans (List.perm_insertionSort _ _).symm)
  · exact List.sorted_insertionSort _ _
  · exact List.sorted_insertionSort _ _

theorem headerHashKey_perm {h1 h2 : Headers} (hperm : h1.Perm h2)
    (hnd : (h1.map Prod.fst).Nodup) :
    headerHashKey h1 = headerHashKey h2 := by
  have hfun :
      (fun k => goQuote k ++ ":" ++ goQuote ((lookupH h1 k).getD "")) =
      (fun k => goQuote k ++ ":" ++ goQuote ((lookupH h2 k).getD "")) := by
    funext k
    rw [lookupH_perm hperm hnd]
  rw [headerHashKey, headerHashKey, sortKeys_perm_eq (hperm.map Prod.fst), hfun]

theorem headerHashKey_ne_empty (h : Headers) : headerHashKey h ≠ "" := by
  intro he
  have hlen := congrArg String.length he
  rw [headerHashKey_length] at hlen
  exact absurd hlen (by decide)

/-! ## Lemmas: `GetSession` paths and `RoundTrip` header folding -/

theorem getSession_live (connect : Transport → Except GoError Session)
    (ping : Session → Bool) (t : Transport) (st : PoolState) (h : Headers)
    (s : Session)
    (hlive : SessionManager.lookupLive ping st.sessions
      (SessionManager.generateSessionKey t h) = some s) :
    SessionManager.GetSession connect ping t st h = (Except.ok s, st, 0) := by
  simp only [SessionManager.GetSession, hlive]

theorem getSession_dead (connect : Transport → Except GoError Session)
    (ping : Session → Bool) (t : Transport) (st : PoolState) (h : Headers)
    (hdead : SessionManager.lookupLive ping st.sessions
      (SessionManager.generateSessionKey t h) = none) :
    SessionManager.GetSession connect ping t st h =
      match connect (SessionManager.wrapTransportWithHeaders t h) with
      | Except.error e =>
          (Except.error (GoError.wrap "failed to create session" e), st, 1)
      | Except.ok s =>
          (Except.ok s,
            { sessions := mapSet st.sessions
                (SessionManager.generateSessionKey t h)
                { session := s, headers := h } }, 1) := by
  simp only [SessionManager.GetSession, hdead]

theorem foldl_headerSet_lookup (cfg : Headers) (init : Headers) (k : String) :
    (cfg.map Prod.fst).Nodup →
    lookupH (cfg.foldl (fun h kv => headerSet h kv.1 kv.2) init) k =
      (match lookupH cfg k with
       | some v => some v
       | none => lookupH init k) := by
  induction cfg generalizing init with
  | nil => intro _; rfl
  | cons p r ih =>
    intro hnd
    obtain ⟨k1, v1⟩ := p
    rw [List.map_cons, List.nodup_cons] at hnd
    rw [List.foldl_cons, ih (headerSet init k1 v1) hnd.2]
    by_cases hk : k1 = k
    · subst hk
      rw [lookupH_eq_none.mpr hnd.1, lookupH, if_pos rfl]
      simp [headerSet, lookupH_mapSet_self]
    · rw [lookupH, if_neg hk]
      cases hr : lookupH r k with
      | some v => simp
      | none => simp [headerSet, lookupH_mapSet_ne _ _ hk]

/-- Sanity check: the embedded MD5 reproduces the RFC 1321 test vector for
the empty message. -/
theorem md5_rfc1321_empty :
    hexEncode (md5 (strBytes "")) = "d41d8cd98f00b204e9800998ecf8427e" := by
  decide

/-- Sanity check: the embedded MD5 reproduces the RFC 1321 test vector for
"abc". -/
theorem md5_rfc1321_abc :
    hexEncode (md5 (strBytes "abc")) = "900150983cd24fb0d6963f7d28e17f72" := by
  decide

/-- Sanity check: the embedded MD5 reproduces the RFC 1321 test vector for
the 80-digit message, whose padded form spans two 64-byte blocks. -/
theorem md5_rfc1321_len80 :
    hexEncode (md5 (strBytes (String.join (List.replicate 8 "1234567890")))) =
      "57edf4a22be3c955ac49da2e2107b67a" := by
  decide

/-! ## The claims -/

/-- C1 (amended): for every header map, the internal
`sessionManager.generateSessionKey` returns the sentinel key "default"
whenever the manager's transport is of a header-insensitive kind,
regardless of the content of the header map.  (The exported
`SessionManager.generateSessionKey` does not consult the transport; see the
counterexample.) -/
theorem internal_key_default_for_insensitive (t : Transport) (h : Headers)
    (hins : sessionManager.headersAffectSession t = false) :
    sessionManager.generateSessionKey t h = "default" := by
  rw [internal_key_eq]
  simp [hins]

/-- C1 witness: the stdio transport is header-insensitive and a non-empty
header map still keys to "default" in the internal variant. -/
theorem internal_key_default_for_insensitive_witness :
    sessionManager.generateSessionKey Transport.stdio [("a", "b")] =
      "default" :=
  internal_key_default_for_insensitive Transport.stdio [("a", "b")] rfl

/-- C1 counterexample: the claim fails for the exported variant.  The stdio
transport is header-insensitive, yet the exported
`SessionManager.generateSessionKey` maps the non-empty header map
`[("a", "b")]` to the MD5 hash key, not to "default". -/
theorem exported_key_ignores_transport_cex :
    sessionManager.headersAffectSession Transport.stdio = false
    ∧ SessionManager.generateSessionKey Transport.stdio [("a", "b")] ≠
        "default" := by
  refine ⟨rfl, ?_⟩
  rw [exported_key_eq]
  simp [headerHashKey_ne_default]

/-- C2: the two key-derivation variants in closed form.  The exported
variant hashes every non-empty header map; the internal variant returns
"default" whenever the transport is header-insensitive or the map is
empty, and the hash otherwise.  Since the hash key is never "default", the
two agree exactly when the transport is header-sensitive or the map is
empty, and differ exactly on non-empty maps with a header-insensitive
transport, where the internal variant returns "default" and the exported
variant the hash. -/
theorem key_variants_agree_and_differ (t : Transport) (h : Headers) :
    SessionManager.generateSessionKey t h =
      (if h = [] then "default" else headerHashKey h)
    ∧ sessionManager.generateSessionKey t h =
      (if sessionManager.headersAffectSession t = false ∨ h = [] then
        "default"
       else headerHashKey h)
    ∧ headerHashKey h ≠ "default" :=
  ⟨exported_key_eq t h, internal_key_eq t h, headerHashKey_ne_default h⟩

/-- C3: when the external `Connect` fails and the pool holds no live entry
for the key, `GetSession` returns the `Connect` error wrapped in
"failed to create session", the sessions map is exactly what it was before
the call (no entry stored or removed for the failed attempt), and
`Connect` was invoked once. -/
theorem getSession_connect_failure_frame
    (connect : Transport → Except GoError Session) (ping : Session → Bool)
    (t : Transport) (st : PoolState) (h : Headers) (e : GoError)
    (hdead : SessionManager.lookupLive ping st.sessions
      (SessionManager.generateSessionKey t h) = none)
    (hfail : connect (SessionManager.wrapTransportWithHeaders t h) =
      Except.error e) :
    SessionManager.GetSession connect ping t st h =
      (Except.error (GoError.wrap "failed to create session" e), st, 1) := by
  rw [getSession_dead connect ping t st h hdead, hfail]

/-- C3 witness: a failing `Connect` on an empty pool. -/
theorem getSession_connect_failure_frame_witness :
    SessionManager.GetSession (fun _ => Except.error (GoError.base "boom"))
      (fun _ => false) Transport.stdio (PoolState.mk []) [] =
      (Except.error (GoError.wrap "failed to create session"
        (GoError.base "boom")), PoolState.mk [], 1) :=
  getSession_connect_failure_frame (fun _ => Except.error (GoError.base "boom"))
    (fun _ => false) Transport.stdio (PoolState.mk []) [] (GoError.base "boom")
    rfl rfl

/-- C4: `Close` empties the sessions map; it attempts to close every stored
session and returns no error exactly when every close succeeded, otherwise
the aggregate of all collected failures (it does not stop at the first
one); and a subsequent `GetSession` on the emptied pool behaves like on a
fresh pool: with a succeeding `Connect` it establishes and stores a new
session. -/
theorem close_collects_all_and_resets (closeFn : Session → Option GoError)
    (st : PoolState) (connect : Transport → Except GoError Session)
    (ping : Session → Bool) (t : Transport) (h : Headers) (s : Session)
    (hok : connect (SessionManager.wrapTransportWithHeaders t h) =
      Except.ok s) :
    (SessionManager.Close closeFn st).2.sessions = []
    ∧ ((∀ p ∈ st.sessions, closeFn p.2.session = none) →
        (SessionManager.Close closeFn st).1 = none)
    ∧ (∀ err ∈ st.sessions.filterMap (fun p => closeFn p.2.session),
        (SessionManager.Close closeFn st).1 =
          some (GoError.aggregate "errors closing sessions"
            (st.sessions.filterMap (fun p => closeFn p.2.session))))
    ∧ SessionManager.GetSession connect ping t
        (SessionManager.Close closeFn st).2 h =
        (Except.ok s,
          PoolState.mk [(SessionManager.generateSessionKey t h,
            SessionEntry.mk s h)], 1) := by
  refine ⟨rfl, ?_, ?_, ?_⟩
  · intro hall
    have hemp : st.sessions.filterMap (fun p => closeFn p.2.session) = [] :=
      List.filterMap_eq_nil_iff.mpr hall
    rw [SessionManager.Close]
    simp [hemp]
  · intro err herr
    have hemp : st.sessions.filterMap (fun p => closeFn p.2.session) ≠ [] :=
      List.ne_nil_of_mem herr
    rw [SessionManager.Close]
    simp only []
    rw [if_neg (fun hb => hemp (List.isEmpty_iff.mp hb))]
  · have hdead : SessionManager.lookupLive ping
        (SessionManager.Close closeFn st).2.sessions
        (SessionManager.generateSessionKey t h) = none := rfl
    rw [getSession_dead connect ping t (SessionManager.Close closeFn st).2 h
      hdead, hok]
    rfl

/-- C4 witness: a pool with one session whose close fails; the map still
empties, the failure is aggregated, and a later `GetSession` succeeds. -/
theorem close_collects_all_and_resets_witness :
    (SessionManager.Close (fun _ => some (GoError.base "x"))
      (PoolState.mk [("default",
        SessionEntry.mk (Session.mk 1) [])])).2.sessions = []
    ∧ ((∀ p ∈ (PoolState.mk [("default",
          SessionEntry.mk (Session.mk 1) [])]).sessions,
        (fun _ => some (GoError.base "x")) p.2.session = none) →
        (SessionManager.Close (fun _ => some (GoError.base "x"))
          (PoolState.mk [("default",
            SessionEntry.mk (Session.mk 1) [])])).1 = none)
    ∧ (∀ err ∈ (PoolState.mk [("default",
          SessionEntry.mk (Session.mk 1) [])]).sessions.filterMap
          (fun p => (fun _ => some (GoError.base "x")) p.2.session),
        (SessionManager.Close (fun _ => some (GoError.base "x"))
          (PoolState.mk [("default",
            SessionEntry.mk (Session.mk 1) [])])).1 =
          some (GoError.aggregate "errors closing sessions"
            ((PoolState.mk [("default",
              SessionEntry.mk (Session.mk 1) [])]).sessions.filterMap
              (fun p => (fun _ => some (GoError.base "x")) p.2.session))))
    ∧ SessionManager.GetSession (fun _ => Except.ok (Session.mk 2))
        (fun _ => true) Transport.stdio
        (SessionManager.Close (fun _ => some (GoError.base "x"))
          (PoolState.mk [("default",
            SessionEntry.mk (Session.mk 1) [])])).2 [] =
        (Except.ok (Session.mk 2),
          PoolState.mk [(SessionManager.generateSessionKey Transport.stdio [],
            SessionEntry.mk (Session.mk 2) [])], 1) :=
  close_collects_all_and_resets (fun _ => some (GoError.base "x"))
    (PoolState.mk [("default", SessionEntry.mk (Session.mk 1) [])])
    (fun _ => Except.ok (Session.mk 2)) (fun _ => true) Transport.stdio []
    (Session.mk 2) rfl

/-- C5: two header maps holding exactly the same key/value pairs (any
insertion order, i.e. any permutation, with map keys unique) derive the
same session key. -/
theorem sessionKey_perm_invariant (t : Transport) (h1 h2 : Headers)
    (hperm : h1.Perm h2) (hnd : (h1.map Prod.fst).Nodup) :
    SessionManager.generateSessionKey t h1 =
      SessionManager.generateSessionKey t h2 := by
  rw [exported_key_eq, exported_key_eq]
  by_cases he : h1 = []
  · subst he
    rw [if_pos rfl, if_pos (List.Perm.eq_nil hperm.symm)]
  · have hne2 : h2 ≠ [] := by
      intro h0
      rw [h0] at hperm
      exact he (List.Perm.eq_nil hperm)
    rw [if_neg he, if_neg hne2]
    exact headerHashKey_perm hperm hnd

/-- C5 witness: the same two pairs in both insertion orders key
identically. -/
theorem sessionKey_perm_invariant_witness :
    SessionManager.generateSessionKey Transport.stdio
      [("a", "x"), ("b", "y")] =
    SessionManager.generateSessionKey Transport.stdio
      [("b", "y"), ("a", "x")] :=
  sessionKey_perm_invariant Transport.stdio [("a", "x"), ("b", "y")]
    [("b", "y"), ("a", "x")] (List.Perm.swap ("b", "y") ("a", "x") [])
    (by decide)

/-- C6: the exported key derivation equals the specification's reference
definition: "default" on an empty map, otherwise the fixed-width hex
rendering of the hash of the canonical brace-wrapped, comma-joined,
sorted quoted pair serialisation. -/
theorem sessionKey_matches_spec (t : Transport) (h : Headers) :
    SessionManager.generateSessionKey t h = specSessionKey h := by
  cases h with
  | nil => rfl
  | cons p r =>
    rw [SessionManager.generateSessionKey, specSessionKey]
    simp

/-- C7: if a `GetSession` call succeeded by establishing and storing a new
session (one `Connect` invocation) and that session's liveness probe still
succeeds, the next `GetSession` with the same header map returns the
identical session, leaves the pool unchanged, and invokes `Connect` zero
times. -/
theorem getSession_reuses_live_session
    (connect : Transport → Except GoError Session) (ping : Session → Bool)
    (t : Transport) (st st1 : PoolState) (h : Headers) (s : Session)
    (hfirst : SessionManager.GetSession connect ping t st h =
      (Except.ok s, st1, 1))
    (hlive : ping s = true) :
    SessionManager.GetSession connect ping t st1 h =
      (Except.ok s, st1, 0) := by
  cases hv : SessionManager.lookupLive ping st.sessions
      (SessionManager.generateSessionKey t h) with
  | some s0 =>
    rw [getSession_live connect ping t st h s0 hv] at hfirst
    simp at hfirst
  | none =>
    rw [getSession_dead connect ping t st h hv] at hfirst
    cases hc : connect (SessionManager.wrapTransportWithHeaders t h) with
    | error e =>
      rw [hc] at hfirst
      simp at hfirst
    | ok s0 =>
      rw [hc] at hfirst
      simp only [Prod.mk.injEq, Except.ok.injEq] at hfirst
      obtain ⟨hs0, hst1, -⟩ := hfirst
      subst hs0
      apply getSession_live
      rw [← hst1]
      simp only [SessionManager.lookupLive, lookupH_mapSet_self,
        SessionManager.isSessionValid, hlive, if_pos]

/-- C7 witness: a first call on an empty pool stores a session; the second
call returns the same session without reconnecting. -/
theorem getSession_reuses_live_session_witness :
    SessionManager.GetSession (fun _ => Except.ok (Session.mk 7))
      (fun _ => true) Transport.stdio
      (PoolState.mk [("default", SessionEntry.mk (Session.mk 7) [])]) [] =
      (Except.ok (Session.mk 7),
        PoolState.mk [("default", SessionEntry.mk (Session.mk 7) [])], 0) :=
  getSession_reuses_live_session (fun _ => Except.ok (Session.mk 7))
    (fun _ => true) Transport.stdio (PoolState.mk [])
    (PoolState.mk [("default", SessionEntry.mk (Session.mk 7) [])]) []
    (Session.mk 7) rfl rfl

/-- C8: with map-unique configured header names, the request the
header-injecting round tripper forwards is the original request when the
configured set is empty, and otherwise a clone carrying every configured
name/value pair, a configured value overwriting any pre-existing value of
the same name while all other headers and the remaining request fields are
unchanged. -/
theorem roundTrip_injects_headers (cfg : Headers) (req : Request)
    (hnd : (cfg.map Prod.fst).Nodup) :
    (cfg = [] → headerTransport.RoundTrip cfg req = req)
    ∧ (headerTransport.RoundTrip cfg req).body = req.body
    ∧ (headerTransport.RoundTrip cfg req).url = req.url
    ∧ ∀ k, lookupH (headerTransport.RoundTrip cfg req).header k =
        (match lookupH cfg k with
         | some v => some v
         | none => lookupH req.header k) := by
  refine ⟨fun he => by rw [headerTransport.RoundTrip, he]; rfl, ?_, ?_, ?_⟩
  · rw [headerTransport.RoundTrip]
    split <;> rfl
  · rw [headerTransport.RoundTrip]
    split <;> rfl
  · intro k
    rw [headerTransport.RoundTrip]
    split
    · rename_i hlen
      rw [List.length_eq_zero.mp hlen]
      rfl
    · exact foldl_headerSet_lookup cfg req.header k hnd

/-- C8 witness: configuring an Authorization header overwrites the caller's
pre-existing Authorization value on the forwarded request. -/
theorem roundTrip_injects_headers_witness :
    lookupH (headerTransport.RoundTrip [("Authorization", "Bearer t")]
      (Request.mk [("Authorization", "old"), ("X", "y")] (some 1) 2)).header
      "Authorization" = some "Bearer t" :=
  (roundTrip_injects_headers [("Authorization", "Bearer t")]
    (Request.mk [("Authorization", "old"), ("X", "y")] (some 1) 2)
    (by decide)).2.2.2 "Authorization"

/-- C9: binding headers to the transport is the identity on every
header-insensitive transport variant; on the SSE and streamable HTTP
variants it yields the same concrete variant with the same endpoint whose
client decorates only the round-tripping mechanism, copying the redirect
policy, cookie jar and timeout verbatim from the original client. -/
theorem wrapTransport_preserves_client (h : Headers) (t : Transport)
    (e : String) (c : HTTPClient) :
    (sessionManager.headersAffectSession t = false →
      SessionManager.wrapTransportWithHeaders t h = t)
    ∧ SessionManager.wrapTransportWithHeaders (Transport.sse e (some c)) h =
        Transport.sse e (some
          { transport := RoundTripper.header c.transport h,
            checkRedirect := c.checkRedirect, jar := c.jar,
            timeout := c.timeout })
    ∧ SessionManager.wrapTransportWithHeaders
        (Transport.streamable e (some c)) h =
        Transport.streamable e (some
          { transport := RoundTripper.header c.transport h,
            checkRedirect := c.checkRedirect, jar := c.jar,
            timeout := c.timeout }) := by
  refine ⟨?_, rfl, rfl⟩
  intro hins
  cases t <;> first
    | rfl
    | simp [sessionManager.headersAffectSession] at hins

/-- C10: every derived session key is either the sentinel "default" or a
32-character lowercase-hex digest rendering, for both variants; a key is
never the empty string; and the hash of any header map is never "default",
so header-bearing callers cannot alias the sentinel pool entry. -/
theorem sessionKey_shape_invariant (t : Transport) (h : Headers) :
    (SessionManager.generateSessionKey t h = "default"
      ∨ isHexKey32 (SessionManager.generateSessionKey t h) = true)
    ∧ (sessionManager.generateSessionKey t h = "default"
      ∨ isHexKey32 (sessionManager.generateSessionKey t h) = true)
    ∧ SessionManager.generateSessionKey t h ≠ ""
    ∧ sessionManager.generateSessionKey t h ≠ ""
    ∧ headerHashKey h ≠ "default" := by
  rw [exported_key_eq, internal_key_eq]
  refine ⟨?_, ?_, ?_, ?_, headerHashKey_ne_default h⟩
  · split
    · exact Or.inl rfl
    · exact Or.inr (isHexKey32_headerHashKey h)
  · split
    · exact Or.inl rfl
    · exact Or.inr (isHexKey32_headerHashKey h)
  · split
    · decide
    · exact headerHashKey_ne_empty h
  · split
    · decide
    · exact headerHashKey_ne_empty h
